import Mathlib

set_option linter.unusedVariables false

/-!
Verification of the Music-Arpeggiator backend.

Shallow embedding of the services in `backend/app/services/`:
`pattern_generator.py`, `music_theory_engine.py`, `hybrid_generator.py`
and `midi_processor.py`.  Durations and times are embedded as rationals
(the float values appearing in the source are all small dyadic rationals,
so float arithmetic on them is exact).  Python randomness
(`random.choice`, `random.randint`, the torch sampling consumed by the
language model) is embedded as an explicit stream-with-position state
`Rng` threaded through the computation; seeding replaces the state by a
state that is a function of the seed alone.  Python exceptions are
embedded as `Option`/explicit failure values.
-/

namespace MusicArp

/-- Explicit random-source state: an infinite stream of naturals and a
position.  Each primitive draw consumes one stream element.  This embeds
the process-global `random` / `numpy` / `torch` generator state that the
Python code consumes. -/
structure Rng where
  stream : Nat → Nat
  pos : Nat

/-- Draw one raw value and advance the state. -/
def Rng.next (g : Rng) : Nat × Rng := (g.stream g.pos, ⟨g.stream, g.pos + 1⟩)

/-- Embeds `random.randint(a, b)` (inclusive bounds): one draw, reduced
into the interval. -/
def randint (a b : Int) (g : Rng) : Int × Rng :=
  let n := g.next
  (a + ((n.1 % (b - a + 1).toNat : Nat) : Int), n.2)

/-- Embeds `random.choice(l)`: one draw used as an index.  The default
`dfl` is only reached for an empty list, where the Python call would
raise; every call site in this development passes a nonempty list. -/
def choice {α : Type} (l : List α) (dfl : α) (g : Rng) : α × Rng :=
  let n := g.next
  (l.getD (n.1 % l.length) dfl, n.2)

/-- Modelled from the spec: seeding all random-number sources
(`random.seed`, `np.random.seed`, `torch.manual_seed`) replaces the
global generator state by a state that is a function of the seed alone.
The concrete mixing function is irrelevant to the claims. -/
def seedRng (seed : Nat) : Rng :=
  ⟨fun n => (seed + n + 1) * 2654435761 % 4294967296, 0⟩

/-- A fixed concrete state used to instantiate witnesses. -/
def rng0 : Rng := ⟨fun n => n, 0⟩

/-- Mood configuration record, from `MusicTheoryEngine.__init__`
(`music_theory_engine.py`).  Rhythm-pattern durations are rationals. -/
structure MoodConfig where
  scaleType : String
  chordProgression : List String
  rhythmPatterns : List (List ℚ)
  velocityRange : Int × Int
  octaveRange : Int × Int
  noteDensity : String
deriving DecidableEq

def happyConfig : MoodConfig :=
  { scaleType := "major", chordProgression := ["I", "IV", "V", "I"],
    rhythmPatterns := [[0.25, 0.25, 0.25, 0.25], [0.5, 0.25, 0.25]],
    velocityRange := (80, 110), octaveRange := (0, 1), noteDensity := "high" }

def calmConfig : MoodConfig :=
  { scaleType := "major", chordProgression := ["I", "vi", "IV", "V"],
    rhythmPatterns := [[0.5, 0.5], [1.0]],
    velocityRange := (50, 80), octaveRange := (0, 0), noteDensity := "low" }

def energeticConfig : MoodConfig :=
  { scaleType := "major", chordProgression := ["I", "V", "vi", "IV"],
    rhythmPatterns := [[0.125, 0.125, 0.125, 0.125, 0.125, 0.125, 0.125, 0.125]],
    velocityRange := (90, 127), octaveRange := (0, 2), noteDensity := "very_high" }

def darkConfig : MoodConfig :=
  { scaleType := "minor", chordProgression := ["i", "iv", "v", "i"],
    rhythmPatterns := [[0.5, 0.5], [0.75, 0.25]],
    velocityRange := (40, 70), octaveRange := (-1, 0), noteDensity := "medium" }

def ambientConfig : MoodConfig :=
  { scaleType := "major", chordProgression := ["I", "IV", "I", "V"],
    rhythmPatterns := [[1.0], [2.0]],
    velocityRange := (30, 60), octaveRange := (0, 1), noteDensity := "very_low" }

def chaoticConfig : MoodConfig :=
  { scaleType := "chromatic", chordProgression := ["I", "bII", "V", "i"],
    rhythmPatterns := [[0.125, 0.25, 0.125, 0.5], [0.25, 0.125, 0.125, 0.25, 0.25]],
    velocityRange := (60, 120), octaveRange := (-1, 2), noteDensity := "high" }

def epicConfig : MoodConfig :=
  { scaleType := "minor", chordProgression := ["i", "VI", "III", "VII"],
    rhythmPatterns := [[0.5, 0.25, 0.25], [0.25, 0.25, 0.5]],
    velocityRange := (80, 120), octaveRange := (0, 2), noteDensity := "high" }

def melancholicConfig : MoodConfig :=
  { scaleType := "minor", chordProgression := ["i", "iv", "VI", "v"],
    rhythmPatterns := [[0.75, 0.25], [0.5, 0.5]],
    velocityRange := (45, 75), octaveRange := (0, 1), noteDensity := "medium" }

/-- Embeds `self.mood_configs.get(mood, self.mood_configs['happy'])`:
the dictionary lookup with defensive default, used at every place the
engine resolves a mood. -/
def lookupMoodConfig (mood : String) : MoodConfig :=
  match mood with
  | "happy" => happyConfig
  | "calm" => calmConfig
  | "energetic" => energeticConfig
  | "dark" => darkConfig
  | "ambient" => ambientConfig
  | "chaotic" => chaoticConfig
  | "epic" => epicConfig
  | "melancholic" => melancholicConfig
  | _ => happyConfig

/-- The eight dictionary keys of `mood_configs` (also the keys of the
fallback-pattern and prompt-description tables). -/
def moodKeys : List String :=
  ["happy", "calm", "energetic", "dark", "ambient", "chaotic", "epic", "melancholic"]

/-- Embeds `MusicTheoryEngine._get_notes_per_bar`
(`density_map.get(density, 8)`). -/
def get_notes_per_bar (density : String) : Nat :=
  match density with
  | "very_low" => 2
  | "low" => 4
  | "medium" => 8
  | "high" => 16
  | "very_high" => 32
  | _ => 8

/-- Embeds `MusicTheoryEngine._key_to_midi` (`key_map.get(key, 60)`). -/
def key_to_midi (key : String) : Int :=
  match key with
  | "C" => 60 | "C#" => 61 | "Db" => 61
  | "D" => 62 | "D#" => 63 | "Eb" => 63
  | "E" => 64
  | "F" => 65 | "F#" => 66 | "Gb" => 66
  | "G" => 67 | "G#" => 68 | "Ab" => 68
  | "A" => 69 | "A#" => 70 | "Bb" => 70
  | "B" => 71
  | _ => 60

/-- Embeds the `mood_descriptions.get(mood, 'musical')` table of
`PatternGenerator._create_prompt`. -/
def mood_description (mood : String) : String :=
  match mood with
  | "happy" => "uplifting, bright, and joyful"
  | "calm" => "peaceful, serene, and gentle"
  | "energetic" => "dynamic, powerful, and exciting"
  | "dark" => "mysterious, somber, and intense"
  | "ambient" => "atmospheric, spacious, and ethereal"
  | "chaotic" => "unpredictable, wild, and intense"
  | "epic" => "grand, heroic, and dramatic"
  | "melancholic" => "sad, reflective, and emotional"
  | _ => "musical"

/-- Embeds `PatternGenerator._create_prompt`.  The `numNotes` argument is
accepted and unused, exactly as in the source. -/
def create_prompt (key mood : String) (numNotes : Nat) : String :=
  "Music composition in " ++ key ++ " with " ++ mood_description mood ++
    " character.\nArpeggio pattern: "

/-- Embeds the `patterns.get(mood, [0, 2, 4, 5, 7])` table of
`PatternGenerator._fallback_pattern`. -/
def fallbackBase (mood : String) : List Int :=
  match mood with
  | "happy" => [0, 2, 4, 7, 4, 2]
  | "calm" => [0, 2, 4, 2, 0]
  | "energetic" => [0, 4, 7, 12, 7, 4, 0, -5]
  | "dark" => [0, 3, 5, 7, 5, 3]
  | "ambient" => [0, 4, 7, 11, 7, 4]
  | "chaotic" => [0, 6, 2, 7, 1, 5, 3, 4]
  | "epic" => [0, 3, 7, 10, 7, 3]
  | "melancholic" => [0, 3, 5, 8, 5, 3]
  | _ => [0, 2, 4, 5, 7]

/-- Embeds the `while len(intervals) < num_notes: intervals.extend(base_pattern)`
loop of `_fallback_pattern`.  The loop runs at most `numNotes` times when
`base` is nonempty (every table entry is), so the fuel argument is set to
`numNotes` by the caller; fuel exhaustion is unreachable for nonempty
`base` and corresponds to the divergence of the source loop on an empty
one. -/
def fbLoop (base : List Int) (numNotes : Nat) : Nat → List Int → List Int
  | 0, acc => acc
  | fuel + 1, acc =>
    if acc.length < numNotes then fbLoop base numNotes fuel (acc ++ base) else acc

/-- Embeds `PatternGenerator._fallback_pattern`. -/
def fallback_pattern (mood : String) (numNotes : Nat) : List Int :=
  (fbLoop (fallbackBase mood) numNotes numNotes []).take numNotes

/-- Helper for `digitRuns`: groups maximal runs of consecutive digit
characters, accumulating the current run in reverse. -/
def digitRunsAux : List Char → List Char → List (List Char)
  | [], acc => if acc = [] then [] else [acc.reverse]
  | c :: rest, acc =>
    if c.isDigit then digitRunsAux rest (c :: acc)
    else if acc = [] then digitRunsAux rest [] else acc.reverse :: digitRunsAux rest []

/-- Embeds `re.findall(r'\d+', text)`: every maximal run of digit
characters, in order. -/
def digitRuns (cs : List Char) : List (List Char) := digitRunsAux cs []

/-- Embeds `int(m)` on a digit run. -/
def numVal (run : List Char) : Nat :=
  run.foldl (fun a c => a * 10 + (c.toNat - 48)) 0

/-- Embeds the character scan of `_extract_intervals` over the second
half of the text: digits contribute their value mod 8, letters the
lower-cased character code mod 8, stopping once `numNotes` values are
collected (the length test runs after every character, as in the
source). -/
def scanChars (numNotes : Nat) : List Char → List Int → List Int
  | [], acc => acc
  | c :: rest, acc =>
    let acc' :=
      if c.isDigit then acc ++ [((c.toNat - 48 : Nat) : Int) % 8]
      else if c.isAlpha then acc ++ [((c.toLower.toNat : Nat) : Int) % 8]
      else acc
    if numNotes ≤ acc'.length then acc' else scanChars numNotes rest acc'

/-- The character-scan fallback applied to `text[len(text)//2:]`. -/
def scanSecondHalf (text : String) (numNotes : Nat) : List Int :=
  scanChars numNotes (text.toList.drop (text.toList.length / 2)) []

/-- Embeds the padding loop of `_extract_intervals`:
`while len(intervals) < num_notes: intervals.extend(intervals[:num_notes - len(intervals)])`.
Each iteration at least doubles a nonempty list or completes it, so fuel
`numNotes` is always sufficient for the nonempty lists this is applied
to; fuel exhaustion corresponds to the divergence of the source loop on
an empty list, which is unreachable from `extract_intervals`. -/
def padLoop (numNotes : Nat) : Nat → List Int → List Int
  | 0, l => l
  | fuel + 1, l =>
    if l.length < numNotes then
      padLoop numNotes fuel (l ++ l.take (numNotes - l.length))
    else l

/-- Embeds `PatternGenerator._extract_intervals`. -/
def extract_intervals (text : String) (numNotes : Nat) : List Int :=
  let found := digitRuns text.toList
  if found = [] then
    let intervals := scanSecondHalf text numNotes
    if intervals = [] then [] else intervals.take numNotes
  else
    let intervals := (found.take numNotes).map fun m => ((numVal m : Int) % 8)
    (padLoop numNotes numNotes intervals).take numNotes

/-- Embeds `PatternGenerator.generate_interval_pattern` downstream of the
model call: `gen = none` embeds an exception raised by `_generate_text`
(the `except` branch), `gen = some text` the text it returned. -/
def generate_interval_pattern (gen : Option String) (mood : String) (numNotes : Nat) :
    List Int :=
  match gen with
  | none => fallback_pattern mood numNotes
  | some text =>
    let intervals := extract_intervals text numNotes
    if intervals = [] ∨ intervals.length < numNotes / 2 then fallback_pattern mood numNotes
    else intervals

/-- Modelled from the spec: the pretrained causal language model sampling
step (`PatternGenerator._generate_text`, GPT-2 with temperature and
nucleus sampling).  The model weights are external to the repository; all
that the claims need is that the produced text is a function of the
prompt, the temperature and the consumed random state. -/
def lm_generate (prompt : String) (temperature : ℚ) (g : Rng) : String × Rng :=
  let n := g.next
  (toString (n.1 % 100) ++ " " ++ toString (prompt.length + temperature.num.toNat), n.2)

/-- Modelled from the spec: `music21.pitch.Pitch(key)` for the key names
admitted by the request schema (`^[A-G](#|b)?$`), at the default octave 4;
`none` embeds the parse exception for any other string. -/
def parse_key (key : String) : Option Int :=
  match key with
  | "C" => some 60 | "C#" => some 61 | "Db" => some 61
  | "D" => some 62 | "D#" => some 63 | "Eb" => some 63
  | "E" => some 64
  | "F" => some 65 | "F#" => some 66 | "Gb" => some 66
  | "G" => some 67 | "G#" => some 68 | "Ab" => some 68
  | "A" => some 69 | "A#" => some 70 | "Bb" => some 70
  | "B" => some 71
  | _ => none

/-- Modelled from the spec: the pitch offsets of `s.pitches` for the
music21 scale objects used by `get_scale_notes` (tonic to tonic an octave
up; diatonic major or natural minor, or all twelve semitones for the
chromatic scale; any other scale type builds a major scale, as in the
source `else` branch). -/
def scale_steps (scale_type : String) : List Int :=
  match scale_type with
  | "major" => [0, 2, 4, 5, 7, 9, 11, 12]
  | "minor" => [0, 2, 3, 5, 7, 8, 10, 12]
  | "chromatic" => [0, 1, 2, 3, 4, 5, 6, 7, 8, 9, 10, 11, 12]
  | _ => [0, 2, 4, 5, 7, 9, 11, 12]

/-- Embeds `MusicTheoryEngine.get_scale_notes`: four octave
transpositions (`range(-1, 3)`), the piano-range filter, then
`sorted(list(set(pitches)))`; the `except` branch returns the fixed
C-major fallback. -/
def get_scale_notes (key : String) (scale_type : String) : List Int :=
  match parse_key key with
  | none => [60, 62, 64, 65, 67, 69, 71, 72]
  | some root =>
    let pitches := ([-1, 0, 1, 2] : List Int).flatMap fun octave =>
      (scale_steps scale_type).filterMap fun step =>
        let midi := root + step + octave * 12
        if 21 ≤ midi ∧ midi ≤ 108 then some midi else none
    pitches.toFinset.sort (· ≤ ·)

/-- One rendered note, from the dictionaries built by
`create_arpeggio_from_intervals` (`end` is a Lean keyword, hence
`end_`). -/
structure Note where
  pitch : Int
  start : ℚ
  end_ : ℚ
  velocity : Int
deriving DecidableEq

/-- Embeds the `for i in range(total_notes)` loop of
`create_arpeggio_from_intervals`: the remaining count, the loop index,
the running time cursor and the random state.  `getD` stands for the
Python indexings `intervals[i % len(intervals)]`,
`scale_notes[scale_index]` and `rhythm_pattern[i % len(rhythm_pattern)]`;
the defaults are only reachable for empty lists, which the caller rules
out (an empty `intervals` raises in Python and is mapped to `none`
upstream, and `scale_notes` and `rhythm` are never empty). -/
def arpLoop (intervals scaleNotes : List Int) (octR velR : Int × Int)
    (rhythm : List ℚ) : Nat → Nat → ℚ → Rng → List Note × Rng
  | 0, _, _, g => ([], g)
  | n + 1, i, t, g =>
    let interval := intervals.getD (i % intervals.length) 0
    let scaleIndex := (interval % (scaleNotes.length : Int)).toNat
    let basePitch := scaleNotes.getD scaleIndex 0
    let oc := randint octR.1 octR.2 g
    let pitch := max 21 (min 108 (basePitch + oc.1 * 12))
    let duration := rhythm.getD (i % rhythm.length) 0
    let vel := randint velR.1 velR.2 oc.2
    let rest := arpLoop intervals scaleNotes octR velR rhythm n (i + 1) (t + duration) vel.2
    (⟨pitch, t, t + duration, vel.1⟩ :: rest.1, rest.2)

/-- Embeds `MusicTheoryEngine.create_arpeggio_from_intervals`.  The
`none` result embeds the `ZeroDivisionError` the source raises at
`intervals[i % len(intervals)]` when the interval list is empty and at
least one note is to be rendered; `bpm` is accepted and never read, as in
the source. -/
def create_arpeggio_from_intervals (key mood : String) (intervals : List Int)
    (numBars : Nat) (bpm : Int) (g : Rng) : Option (List Note) × Rng :=
  let config := lookupMoodConfig mood
  let scaleNotes := get_scale_notes key config.scaleType
  let _rootMidi := key_to_midi key
  let notesPerBar := get_notes_per_bar config.noteDensity
  let totalNotes := notesPerBar * numBars
  let rc := choice config.rhythmPatterns [] g
  if totalNotes ≠ 0 ∧ intervals = [] then (none, rc.2)
  else
    let r := arpLoop intervals scaleNotes config.octaveRange config.velocityRange rc.1
      totalNotes 0 0 rc.2
    (some r.1, r.2)

/-- Embeds the `alternating` loop of `create_pattern_from_style`: the
remaining count, the loop index `i` and the `ascending` flag, which flips
whenever `(i + 1) % 8 == 0`. -/
def alternatingGo : Nat → Nat → Bool → List Int
  | 0, _, _ => []
  | n + 1, i, asc =>
    (if asc then ((i % 8 : Nat) : Int) else 7 - ((i % 8 : Nat) : Int)) ::
      alternatingGo n (i + 1) (if (i + 1) % 8 = 0 then !asc else asc)

/-- Embeds `[random.randint(0, 7) for _ in range(total_notes)]`. -/
def randList : Nat → Rng → List Int × Rng
  | 0, g => ([], g)
  | n + 1, g =>
    let v := randint 0 7 g
    let rest := randList n v.2
    (v.1 :: rest.1, rest.2)

/-- Embeds `MusicTheoryEngine.create_pattern_from_style`. -/
def create_pattern_from_style (style key mood : String) (numBars : Nat) (g : Rng) :
    List Int × Rng :=
  let config := lookupMoodConfig mood
  let totalNotes := get_notes_per_bar config.noteDensity * numBars
  if style = "ascending" then
    (((List.range totalNotes).map fun i => ((i % 8 : Nat) : Int)), g)
  else if style = "descending" then
    (((List.range totalNotes).map fun i => 7 - ((i % 8 : Nat) : Int)), g)
  else if style = "alternating" then
    (alternatingGo totalNotes 0 true, g)
  else if style = "random" then
    randList totalNotes g
  else
    (((List.range totalNotes).map fun i => ((i % 8 : Nat) : Int)), g)

/-- Embeds `MusicTheoryEngine._analyze_pattern_movement` (the Python
`1.5` multiplier is the exact rational 3/2). -/
def analyze_pattern_movement (intervals : List Int) : String :=
  if intervals.length < 2 then "static"
  else
    let steps := intervals.zip intervals.tail
    let asc := steps.countP fun p => decide (p.1 < p.2)
    let desc := steps.countP fun p => decide (p.2 < p.1)
    if (desc : ℚ) * 1.5 < (asc : ℚ) then "ascending"
    else if (asc : ℚ) * 1.5 < (desc : ℚ) then "descending"
    else "alternating"

/-- Embeds Python `str.capitalize()`. -/
def capitalize (s : String) : String :=
  match s.toList with
  | [] => ""
  | c :: rest => String.mk (c.toUpper :: rest.map Char.toLower)

/-- Embeds `MusicTheoryEngine.get_mood_description`. -/
def get_mood_description (mood : String) (intervals : List Int) : String :=
  let config := lookupMoodConfig mood
  capitalize mood ++ " " ++ config.scaleType ++ " arpeggio with " ++
    analyze_pattern_movement intervals ++ " movement"

/-- The MIDI container built by `MidiProcessor.notes_to_midi`: the
declared initial tempo, the single instrument program and the notes
appended verbatim. -/
structure MidiContainer where
  initialTempo : Int
  program : Nat
  notes : List Note
deriving DecidableEq

/-- Embeds `MidiProcessor.notes_to_midi` (default instrument program 0,
acoustic grand piano). -/
def notes_to_midi (notes : List Note) (bpm : Int) (instrumentProgram : Option Nat) :
    MidiContainer :=
  { initialTempo := bpm, program := instrumentProgram.getD 0, notes := notes }

/-- Modelled from the spec: `MidiProcessor.midi_to_bytes`, the standard
MIDI serialization performed by the external pretty_midi library.  The
claims need only that the bytes are a function of the container, so the
container is flattened field by field. -/
def midi_to_bytes (midi : MidiContainer) : List ℚ :=
  (midi.initialTempo : ℚ) :: (midi.program : ℚ) ::
    midi.notes.flatMap fun nt => [(nt.pitch : ℚ), nt.start, nt.end_, (nt.velocity : ℚ)]

/-- Embeds `HybridMusicGenerator._generate_ai_pattern` composed with the
`try` body of `generate_interval_pattern` (temperature 0.8). -/
def generate_ai_pattern (key mood : String) (numBars : Nat) (g : Rng) : List Int × Rng :=
  let config := lookupMoodConfig mood
  let numNotes := get_notes_per_bar config.noteDensity * numBars
  let tr := lm_generate (create_prompt key mood numNotes) 0.8 g
  (generate_interval_pattern (some tr.1) mood numNotes, tr.2)

/-- Embeds `HybridMusicGenerator.generate_arpeggio`: optional seeding of
every random source, interval generation by style, rendering, MIDI
wrapping and description.  `none` propagates the rendering exception. -/
def generate_arpeggio (key mood : String) (bpm : Int) (numBars : Nat)
    (patternStyle : String) (seed : Option Nat) (g : Rng) :
    Option (MidiContainer × String) × Rng :=
  let g0 := match seed with | some s => seedRng s | none => g
  let ir :=
    if patternStyle = "ai-generated" then generate_ai_pattern key mood numBars g0
    else create_pattern_from_style patternStyle key mood numBars g0
  let ar := create_arpeggio_from_intervals key mood ir.1 numBars bpm ir.2
  match ar.1 with
  | none => (none, ar.2)
  | some notes =>
    (some (notes_to_midi notes bpm none, get_mood_description mood ir.1), ar.2)

/-- The first `n` values of the infinite cyclic repetition of `l`
(used as the specification of the padding and fallback loops). -/
def cyclicRep (l : List Int) (n : Nat) : List Int :=
  (List.range n).map fun i => l.getD (i % l.length) 0

theorem cyclicRep_length (l : List Int) (n : Nat) : (cyclicRep l n).length = n := by
  simp [cyclicRep]

theorem cyclicRep_self (l : List Int) : cyclicRep l l.length = l := by
  apply List.ext_getElem
  · simp [cyclicRep]
  · intro i h1 h2
    simp only [cyclicRep, List.getElem_map, List.getElem_range]
    rw [Nat.mod_eq_of_lt h2, List.getD_eq_getElem _ _ h2]

theorem cyclicRep_take (l : List Int) {j n : Nat} (h : j ≤ n) :
    (cyclicRep l n).take j = cyclicRep l j := by
  simp only [cyclicRep, ← List.map_take, List.take_range, Nat.min_eq_left h]

theorem cyclicRep_append (l : List Int) (c j : Nat) :
    cyclicRep l (l.length * c + j) = cyclicRep l (l.length * c) ++ cyclicRep l j := by
  simp only [cyclicRep, List.range_add, List.map_append, List.map_map]
  congr 1
  apply List.map_congr_left
  intro x _
  simp [Function.comp, Nat.mul_add_mod]

theorem cyclicRep_append_dvd (l : List Int) {m : Nat} (hm : l.length ∣ m) (j : Nat) :
    cyclicRep l (m + j) = cyclicRep l m ++ cyclicRep l j := by
  obtain ⟨c, rfl⟩ := hm
  exact cyclicRep_append l c j

theorem getD_mod_mem {α : Type} (l : List α) (d : α) (h : l ≠ []) (i : Nat) :
    l.getD (i % l.length) d ∈ l := by
  have hl : 0 < l.length := List.length_pos.mpr h
  rw [List.getD_eq_getElem _ _ (Nat.mod_lt _ hl)]
  exact List.getElem_mem _

theorem cyclicRep_subset {l : List Int} (h : l ≠ []) {n : Nat} :
    ∀ x ∈ cyclicRep l n, x ∈ l := by
  intro x hx
  simp only [cyclicRep, List.mem_map, List.mem_range] at hx
  obtain ⟨i, _, rfl⟩ := hx
  exact getD_mod_mem l 0 h i

theorem fallbackBase_ne_nil (mood : String) : fallbackBase mood ≠ [] := by
  unfold fallbackBase
  split <;> decide

/-- The fallback loop, started on a prefix-aligned accumulator, always
ends on a cyclic repetition long enough to cover `numNotes`. -/
theorem fbLoop_cyclic (base : List Int) (hb : base ≠ []) (numNotes : Nat) :
    ∀ fuel m, base.length ∣ m → numNotes ≤ m + fuel →
      ∃ M, base.length ∣ M ∧ numNotes ≤ M ∧
        fbLoop base numNotes fuel (cyclicRep base m) = cyclicRep base M := by
  intro fuel
  induction fuel with
  | zero =>
    intro m hdvd hle
    exact ⟨m, hdvd, by omega, rfl⟩
  | succ fuel ih =>
    intro m hdvd hle
    rw [fbLoop]
    by_cases hlt : (cyclicRep base m).length < numNotes
    · rw [if_pos hlt]
      have hstep : cyclicRep base m ++ base = cyclicRep base (m + base.length) := by
        rw [cyclicRep_append_dvd base hdvd, cyclicRep_self]
      rw [hstep]
      have hlen1 : 1 ≤ base.length := List.length_pos.mpr hb
      exact ih (m + base.length) (Dvd.dvd.add hdvd dvd_rfl) (by omega)
    · rw [if_neg hlt]
      rw [cyclicRep_length] at hlt
      exact ⟨m, hdvd, by omega, rfl⟩

/-- `_fallback_pattern` is the cyclic repetition of the per-mood table
truncated to `numNotes`. -/
theorem fallback_pattern_eq (mood : String) (numNotes : Nat) :
    fallback_pattern mood numNotes = cyclicRep (fallbackBase mood) numNotes := by
  have hb : fallbackBase mood ≠ [] := fallbackBase_ne_nil mood
  obtain ⟨M, _, hM, hrun⟩ :=
    fbLoop_cyclic (fallbackBase mood) hb numNotes numNotes 0 (dvd_zero _) (by omega)
  have h0 : cyclicRep (fallbackBase mood) 0 = [] := rfl
  unfold fallback_pattern
  rw [← h0, hrun, cyclicRep_take _ hM]

theorem padLoop_done (numNotes fuel : Nat) (l : List Int) (h : numNotes ≤ l.length) :
    padLoop numNotes fuel l = l := by
  cases fuel with
  | zero => rfl
  | succ fuel => rw [padLoop, if_neg (by omega)]

/-- The padding loop of `_extract_intervals`, started on a cyclic
repetition whose length is a positive multiple of the base length,
computes the cyclic repetition out to `numNotes` (or stops immediately if
already long enough). -/
theorem padLoop_cyclic (l : List Int) (hl : l ≠ []) (numNotes : Nat) :
    ∀ fuel m, 1 ≤ m → l.length ∣ m → numNotes ≤ m + fuel →
      padLoop numNotes fuel (cyclicRep l m) = cyclicRep l (max numNotes m) := by
  intro fuel
  induction fuel with
  | zero =>
    intro m h1 hdvd hle
    rw [padLoop, Nat.max_eq_right (by omega)]
  | succ fuel ih =>
    intro m h1 hdvd hle
    have hlen1 : 1 ≤ l.length := List.length_pos.mpr hl
    rw [padLoop]
    by_cases hlt : (cyclicRep l m).length < numNotes
    · rw [if_pos hlt, cyclicRep_length]
      rw [cyclicRep_length] at hlt
      by_cases hcase : numNotes - m ≤ m
      · rw [cyclicRep_take l hcase, ← cyclicRep_append_dvd l hdvd]
        have hmn : m + (numNotes - m) = numNotes := by omega
        rw [hmn, padLoop_done _ _ _ (by rw [cyclicRep_length]),
          Nat.max_eq_left (by omega)]
      · rw [List.take_of_length_le (by rw [cyclicRep_length]; omega),
          ← cyclicRep_append_dvd l hdvd]
        have := ih (m + m) (by omega) (Dvd.dvd.add hdvd hdvd) (by omega)
        rw [this, Nat.max_eq_left (by omega), Nat.max_eq_left (by omega)]
    · rw [if_neg hlt]
      rw [cyclicRep_length] at hlt
      rw [Nat.max_eq_right (by omega)]

/-- Padding a nonempty, too-short list and truncating equals cyclic
repetition truncated to `numNotes`. -/
theorem padLoop_take (L : List Int) (hne : L ≠ []) (numNotes : Nat)
    (hlt : L.length < numNotes) :
    (padLoop numNotes numNotes L).take numNotes = cyclicRep L numNotes := by
  have h1 : 1 ≤ L.length := List.length_pos.mpr hne
  have h := padLoop_cyclic L hne numNotes numNotes L.length h1 dvd_rfl (by omega)
  conv_lhs => rw [← cyclicRep_self L]
  rw [h, Nat.max_eq_left (by omega), cyclicRep_take L (le_refl numNotes)]

/-- The start/end pairs the render loop produces: a pure function of the
rhythm pattern, the remaining count, the loop index and the time
cursor. -/
def timeList (rhythm : List ℚ) : Nat → Nat → ℚ → List (ℚ × ℚ)
  | 0, _, _ => []
  | n + 1, i, t =>
    (t, t + rhythm.getD (i % rhythm.length) 0) ::
      timeList rhythm n (i + 1) (t + rhythm.getD (i % rhythm.length) 0)

/-- Cyclic sum of the first `n` rhythm durations starting at index `i`. -/
def sumDur (rhythm : List ℚ) : Nat → Nat → ℚ
  | 0, _ => 0
  | n + 1, i => rhythm.getD (i % rhythm.length) 0 + sumDur rhythm n (i + 1)

theorem arpLoop_length (intervals scaleNotes : List Int) (octR velR : Int × Int)
    (rhythm : List ℚ) : ∀ (n i : Nat) (t : ℚ) (g : Rng),
    (arpLoop intervals scaleNotes octR velR rhythm n i t g).1.length = n := by
  intro n
  induction n with
  | zero => intro i t g; rfl
  | succ n ih => intro i t g; simp [arpLoop, ih]

theorem arpLoop_times (intervals scaleNotes : List Int) (octR velR : Int × Int)
    (rhythm : List ℚ) : ∀ (n i : Nat) (t : ℚ) (g : Rng),
    ((arpLoop intervals scaleNotes octR velR rhythm n i t g).1.map
      fun nt => (nt.start, nt.end_)) = timeList rhythm n i t := by
  intro n
  induction n with
  | zero => intro i t g; rfl
  | succ n ih => intro i t g; simp [arpLoop, timeList, ih]

theorem timeList_head_start (rhythm : List ℚ) :
    ∀ (n i : Nat) (t : ℚ) (p : ℚ × ℚ), p ∈ (timeList rhythm n i t).head? → p.1 = t := by
  intro n
  cases n with
  | zero => intro i t p hp; simp [timeList] at hp
  | succ n =>
    intro i t p hp
    simp only [timeList, List.head?_cons, Option.mem_def, Option.some.injEq] at hp
    rw [← hp]

theorem timeList_chain_contig (rhythm : List ℚ) :
    ∀ (n i : Nat) (t : ℚ),
      List.Chain' (fun a b : ℚ × ℚ => a.2 = b.1) (timeList rhythm n i t) := by
  intro n
  induction n with
  | zero => intro i t; simp [timeList]
  | succ n ih =>
    intro i t
    rw [timeList]
    refine List.chain'_cons'.mpr ⟨?_, ih (i + 1) _⟩
    intro y hy
    rw [timeList_head_start rhythm n (i + 1) _ y hy]

theorem timeList_pos (rhythm : List ℚ) (hr : rhythm ≠ []) (hpos : ∀ d ∈ rhythm, 0 < d) :
    ∀ (n i : Nat) (t : ℚ), ∀ p ∈ timeList rhythm n i t, p.1 < p.2 := by
  intro n
  induction n with
  | zero => intro i t p hp; simp [timeList] at hp
  | succ n ih =>
    intro i t p hp
    rw [timeList] at hp
    rcases List.mem_cons.mp hp with h | h
    · subst h
      have hd : 0 < rhythm.getD (i % rhythm.length) 0 :=
        hpos _ (getD_mod_mem rhythm 0 hr i)
      simpa using hd
    · exact ih (i + 1) _ p h

theorem timeList_chain_lt (rhythm : List ℚ) (hr : rhythm ≠ []) (hpos : ∀ d ∈ rhythm, 0 < d) :
    ∀ (n i : Nat) (t : ℚ),
      List.Chain' (fun a b : ℚ × ℚ => a.1 < b.1) (timeList rhythm n i t) := by
  intro n
  induction n with
  | zero => intro i t; simp [timeList]
  | succ n ih =>
    intro i t
    rw [timeList]
    refine List.chain'_cons'.mpr ⟨?_, ih (i + 1) _⟩
    intro y hy
    rw [timeList_head_start rhythm n (i + 1) _ y hy]
    have hd : 0 < rhythm.getD (i % rhythm.length) 0 :=
      hpos _ (getD_mod_mem rhythm 0 hr i)
    simpa using hd

theorem timeList_sum (rhythm : List ℚ) :
    ∀ (n i : Nat) (t : ℚ),
      ((timeList rhythm n i t).map fun p => p.2 - p.1).sum = sumDur rhythm n i := by
  intro n
  induction n with
  | zero => intro i t; rfl
  | succ n ih =>
    intro i t
    simp only [timeList, sumDur, List.map_cons, List.sum_cons, ih (i + 1)]
    ring_nf

theorem choice_mem {α : Type} (l : List α) (dfl : α) (g : Rng) (h : l ≠ []) :
    (choice l dfl g).1 ∈ l := by
  unfold choice
  exact getD_mod_mem l dfl h _

/-- Every rhythm pattern of every resolved mood configuration is
nonempty with strictly positive durations. -/
theorem rhythmPatterns_ok (mood : String) :
    (lookupMoodConfig mood).rhythmPatterns ≠ [] ∧
      ∀ p ∈ (lookupMoodConfig mood).rhythmPatterns, p ≠ [] ∧ ∀ d ∈ p, 0 < d := by
  unfold lookupMoodConfig
  split <;> with_unfolding_all decide

theorem chosen_rhythm_ok (mood : String) (g : Rng) :
    (choice (lookupMoodConfig mood).rhythmPatterns ([] : List ℚ) g).1 ≠ [] ∧
      ∀ d ∈ (choice (lookupMoodConfig mood).rhythmPatterns ([] : List ℚ) g).1, 0 < d := by
  have h := rhythmPatterns_ok mood
  exact h.2 _ (choice_mem _ _ g h.1)

/-- With a nonempty interval list, rendering succeeds and the note list
is exactly the loop run on the resolved configuration. -/
theorem create_arpeggio_eq (key mood : String) (intervals : List Int) (numBars : Nat)
    (bpm : Int) (g : Rng) (hiv : intervals ≠ []) :
    (create_arpeggio_from_intervals key mood intervals numBars bpm g).1 =
      some (arpLoop intervals (get_scale_notes key (lookupMoodConfig mood).scaleType)
        (lookupMoodConfig mood).octaveRange (lookupMoodConfig mood).velocityRange
        ((choice (lookupMoodConfig mood).rhythmPatterns [] g).1)
        (get_notes_per_bar (lookupMoodConfig mood).noteDensity * numBars) 0 0
        ((choice (lookupMoodConfig mood).rhythmPatterns [] g).2)).1 := by
  simp only [create_arpeggio_from_intervals]
  rw [if_neg (by simp [hiv])]

/-- The alternating loop equals its closed form: block `j / 8` is
ascending exactly when it is even. -/
theorem alternatingGo_eq : ∀ (n i : Nat) (asc : Bool), asc = decide ((i / 8) % 2 = 0) →
    alternatingGo n i asc = (List.range n).map fun t =>
      if ((i + t) / 8) % 2 = 0 then (((i + t) % 8 : Nat) : Int)
      else 7 - (((i + t) % 8 : Nat) : Int) := by
  intro n
  induction n with
  | zero => intro i asc h; rfl
  | succ n ih =>
    intro i asc h
    rw [alternatingGo, List.range_succ_eq_map, List.map_cons, List.map_map]
    congr 1
    · subst h
      by_cases hp : (i / 8) % 2 = 0 <;> simp [hp]
    · rw [ih (i + 1) _ ?_]
      · apply List.map_congr_left
        intro t _
        have harith : i + (t + 1) = i + 1 + t := by omega
        simp only [Function.comp_apply, Nat.succ_eq_add_one, harith]
      · by_cases h8 : (i + 1) % 8 = 0
        · rw [if_pos h8]
          subst h
          by_cases hp : (i / 8) % 2 = 0
          · have hno : ¬ ((i + 1) / 8 % 2 = 0) := by omega
            simp [hp, hno]
          · have hyes : (i + 1) / 8 % 2 = 0 := by omega
            simp [hp, hyes]
        · rw [if_neg h8]
          subst h
          have heq : (i + 1) / 8 = i / 8 := by omega
          rw [heq]

/-- Keys accepted by the pitch parser sit in the middle octave. -/
theorem parse_key_bounds {key : String} {root : Int} (h : parse_key key = some root) :
    60 ≤ root ∧ root ≤ 71 := by
  unfold parse_key at h
  split at h <;> simp_all <;> omega

theorem zero_mem_scale_steps (s : String) : (0 : Int) ∈ scale_steps s := by
  unfold scale_steps
  split <;> decide

instance : IsTrans Note (fun a b => a.start < b.start) :=
  ⟨fun _ _ _ h1 h2 => lt_trans h1 h2⟩

/-- Claim C1, counterexample: on a model exception with mood `energetic`
and 8 notes, the returned fallback pattern contains the value -5 (and
also 12), so the values are not all in the interval 0..7 as the claim
states. -/
theorem claim_C1_counterexample :
    generate_interval_pattern none "energetic" 8 = [0, 4, 7, 12, 7, 4, 0, -5] ∧
    (-5 : Int) ∈ generate_interval_pattern none "energetic" 8 ∧ ¬ ((0 : Int) ≤ -5) := by
  decide

/-- Claim C1 (amended: the returned values are the elements of the
per-mood fallback table, which for `energetic` includes 12 and -5, so
they lie in the table rather than in 0..7): whenever the language-model
step raises, or its text yields an empty or too-short extraction, the
result is exactly `numNotes` values, the cyclic repetition of the fixed
per-mood fallback pattern truncated to `numNotes`, every value being an
entry of that pattern. -/
theorem claim_C1 (gen : Option String) (mood : String) (numNotes : Nat)
    (hfail : gen = none ∨ ∀ t, gen = some t →
      extract_intervals t numNotes = [] ∨
        (extract_intervals t numNotes).length < numNotes / 2) :
    generate_interval_pattern gen mood numNotes = cyclicRep (fallbackBase mood) numNotes ∧
    (generate_interval_pattern gen mood numNotes).length = numNotes ∧
    (∀ x ∈ generate_interval_pattern gen mood numNotes, x ∈ fallbackBase mood) ∧
    fallbackBase "happy" = [0, 2, 4, 7, 4, 2] := by
  have hres : generate_interval_pattern gen mood numNotes = fallback_pattern mood numNotes := by
    cases gen with
    | none => rfl
    | some t =>
      rcases hfail with h | h
      · exact absurd h (by simp)
      · simp only [generate_interval_pattern]
        rw [if_pos (h t rfl)]
  rw [hres, fallback_pattern_eq]
  exact ⟨rfl, cyclicRep_length _ _,
    fun x hx => cyclicRep_subset (fallbackBase_ne_nil mood) x hx, rfl⟩

/-- Claim C1, witness at a concrete failing input. -/
theorem claim_C1_witness :
    generate_interval_pattern none "happy" 7 = cyclicRep (fallbackBase "happy") 7 :=
  (claim_C1 none "happy" 7 (Or.inl rfl)).1

/-- Claim C2, counterexample: for the unknown mood `lofi` the mood-config
lookup does fall back to the happy configuration, but the per-mood
fallback interval-pattern table falls back to [0, 2, 4, 5, 7], which is
not the happy entry [0, 2, 4, 7, 4, 2], so the fallback-to-happy
behavior does not hold at that lookup. -/
theorem claim_C2_counterexample :
    lookupMoodConfig "lofi" = lookupMoodConfig "happy" ∧
    fallbackBase "lofi" ≠ fallbackBase "happy" ∧
    fallback_pattern "lofi" 6 ≠ fallback_pattern "happy" 6 := by
  refine ⟨rfl, by decide, by decide⟩

/-- Claim C2 (amended: every `mood_configs` lookup — the one used for
scale resolution, density, rhythm choice and description — falls back to
the happy configuration on an unknown mood, but the fallback
interval-pattern table instead falls back to the fixed list
[0, 2, 4, 5, 7] and the prompt-description table to the word `musical`,
neither of which is the happy entry). -/
theorem claim_C2 (mood : String) (h : mood ∉ moodKeys) :
    lookupMoodConfig mood = lookupMoodConfig "happy" ∧
    fallbackBase mood = [0, 2, 4, 5, 7] ∧
    fallbackBase mood ≠ fallbackBase "happy" ∧
    mood_description mood = "musical" := by
  simp only [moodKeys, List.mem_cons, List.not_mem_nil, or_false, not_or] at h
  obtain ⟨h1, h2, h3, h4, h5, h6, h7, h8⟩ := h
  refine ⟨?_, ?_, ?_, ?_⟩
  · unfold lookupMoodConfig
    split <;> simp_all
  · unfold fallbackBase
    split <;> simp_all
  · unfold fallbackBase
    split <;> simp_all
  · unfold mood_description
    split <;> simp_all

/-- Claim C2, witness at a concrete unknown mood. -/
theorem claim_C2_witness :
    lookupMoodConfig "retro" = lookupMoodConfig "happy" ∧
    fallbackBase "retro" = [0, 2, 4, 5, 7] ∧
    fallbackBase "retro" ≠ fallbackBase "happy" ∧
    mood_description "retro" = "musical" :=
  claim_C2 "retro" (by decide)

/-- Claim C8: when the generated text contains at least one digit run but
fewer than `numNotes` of them, the padding loop yields exactly the first
`numNotes` elements of the cyclic repetition of the extracted mod-8
sequence. -/
theorem claim_C8 (text : String) (numNotes : Nat)
    (h1 : digitRuns text.toList ≠ [])
    (h2 : (digitRuns text.toList).length < numNotes) :
    extract_intervals text numNotes =
      cyclicRep ((digitRuns text.toList).map fun m => ((numVal m : Int) % 8)) numNotes := by
  have hmne : ((digitRuns text.toList).map fun m => ((numVal m : Int) % 8)) ≠ [] := by
    simpa using h1
  have hmlen : ((digitRuns text.toList).map fun m => ((numVal m : Int) % 8)).length
      < numNotes := by
    simpa using h2
  simp only [extract_intervals]
  rw [if_neg h1, List.take_of_length_le (le_of_lt h2)]
  exact padLoop_take _ hmne _ hmlen

/-- Claim C8, witness: two digit runs padded out to five values. -/
theorem claim_C8_witness :
    digitRuns ("ab 12 7 cd".toList) ≠ [] ∧
    (digitRuns ("ab 12 7 cd".toList)).length < 5 ∧
    extract_intervals "ab 12 7 cd" 5 =
      cyclicRep ((digitRuns ("ab 12 7 cd".toList)).map fun m => ((numVal m : Int) % 8)) 5 :=
  ⟨by decide, by decide, claim_C8 "ab 12 7 cd" 5 (by decide) (by decide)⟩

/-- Claim C10, counterexample: for `numNotes = 1` and a text whose second
half has no digits or letters, the scan collects `k = 0` values and
`numNotes / 2 = 0 ≤ k < numNotes` holds, yet the function returns the
fallback pattern `[0]` instead of the collected (empty) list, because
the emptiness branch of the fallback test fires. -/
theorem claim_C10_counterexample :
    digitRuns ("!!!!".toList) = [] ∧
    scanSecondHalf "!!!!" 1 = [] ∧
    (1 : Nat) / 2 ≤ (scanSecondHalf "!!!!" 1).length ∧
    (scanSecondHalf "!!!!" 1).length < 1 ∧
    generate_interval_pattern (some "!!!!") "happy" 1 ≠ scanSecondHalf "!!!!" 1 := by
  decide

/-- Claim C10 (amended: additionally requires at least one collected
value, equivalently `numNotes ≥ 2`; the only failing instances are
`numNotes = 1` with an empty scan, where the emptiness test fires): if
the text has no digit runs and the character scan of its second half
collects `k` values with `1 ≤ k`, `numNotes / 2 ≤ k < numNotes`, the
function returns exactly those `k` values unpadded, a list strictly
shorter than `numNotes`. -/
theorem claim_C10 (text : String) (mood : String) (numNotes : Nat)
    (hnd : digitRuns text.toList = [])
    (h1 : scanSecondHalf text numNotes ≠ [])
    (h2 : numNotes / 2 ≤ (scanSecondHalf text numNotes).length)
    (h3 : (scanSecondHalf text numNotes).length < numNotes) :
    generate_interval_pattern (some text) mood numNotes = scanSecondHalf text numNotes ∧
    (generate_interval_pattern (some text) mood numNotes).length < numNotes := by
  have hext : extract_intervals text numNotes = scanSecondHalf text numNotes := by
    simp only [extract_intervals]
    rw [if_pos hnd, if_neg h1, List.take_of_length_le (le_of_lt h3)]
  have hmain : generate_interval_pattern (some text) mood numNotes =
      scanSecondHalf text numNotes := by
    simp only [generate_interval_pattern, hext]
    rw [if_neg (not_or.mpr ⟨h1, Nat.not_lt.mpr h2⟩)]
  exact ⟨hmain, by rw [hmain]; exact h3⟩

/-- Claim C10, witness: three letters collected from the second half of
a digit-free text, returned unpadded for `numNotes = 5`. -/
theorem claim_C10_witness :
    generate_interval_pattern (some "????abc") "dark" 5 = scanSecondHalf "????abc" 5 ∧
    (generate_interval_pattern (some "????abc") "dark" 5).length < 5 :=
  claim_C10 "????abc" "dark" 5 (by decide) (by decide) (by decide) (by decide)

/-- Claim C3: the `bpm` argument does not affect the rendered notes (the
full result, note list and final random state, is identical for any two
tempi); the MIDI container keeps the notes verbatim and records `bpm`
only as its declared initial tempo; and the total duration rendered (the
sum of all note durations) equals the cyclic sum of the chosen
rhythm-pattern durations, independent of `bpm`. -/
theorem claim_C3 (key mood : String) (intervals : List Int) (numBars : Nat)
    (bpm1 bpm2 : Int) (g : Rng) (hiv : intervals ≠ []) :
    create_arpeggio_from_intervals key mood intervals numBars bpm1 g =
      create_arpeggio_from_intervals key mood intervals numBars bpm2 g ∧
    (∀ (notes : List Note) (b : Int), notes_to_midi notes b none =
      { initialTempo := b, program := 0, notes := notes }) ∧
    ∃ notes, (create_arpeggio_from_intervals key mood intervals numBars bpm1 g).1 =
        some notes ∧
      (notes.map fun nt => nt.end_ - nt.start).sum =
        sumDur ((choice (lookupMoodConfig mood).rhythmPatterns [] g).1)
          (get_notes_per_bar (lookupMoodConfig mood).noteDensity * numBars) 0 := by
  refine ⟨by unfold create_arpeggio_from_intervals; rfl, fun notes b => rfl,
    _, create_arpeggio_eq key mood intervals numBars bpm1 g hiv, ?_⟩
  rw [show (fun nt : Note => nt.end_ - nt.start) =
      ((fun p : ℚ × ℚ => p.2 - p.1) ∘ fun nt : Note => (nt.start, nt.end_)) from rfl,
    ← List.map_map, arpLoop_times, timeList_sum]

/-- Claim C3, witness at a concrete request and two tempi. -/
theorem claim_C3_witness :
    create_arpeggio_from_intervals "C" "calm" [0, 2] 1 120 rng0 =
      create_arpeggio_from_intervals "C" "calm" [0, 2] 1 90 rng0 :=
  (claim_C3 "C" "calm" [0, 2] 1 120 90 rng0 (by decide)).1

/-- The loop output is contiguous, strictly timed and strictly ordered
whenever the rhythm pattern is nonempty with positive durations. -/
theorem arpLoop_props (intervals scaleNotes : List Int) (octR velR : Int × Int)
    (rhythm : List ℚ) (hrne : rhythm ≠ []) (hrpos : ∀ d ∈ rhythm, 0 < d)
    (n i : Nat) (t : ℚ) (g : Rng) :
    List.Chain' (fun a b : Note => a.end_ = b.start)
        (arpLoop intervals scaleNotes octR velR rhythm n i t g).1 ∧
      (∀ nt ∈ (arpLoop intervals scaleNotes octR velR rhythm n i t g).1,
        nt.start < nt.end_) ∧
      List.Pairwise (fun a b : Note => a.start < b.start)
        (arpLoop intervals scaleNotes octR velR rhythm n i t g).1 := by
  have hmap := arpLoop_times intervals scaleNotes octR velR rhythm n i t g
  refine ⟨?_, ?_, ?_⟩
  · have h := timeList_chain_contig rhythm n i t
    rw [← hmap] at h
    exact (List.chain'_map _).mp h
  · intro nt hnt
    have hmem : (nt.start, nt.end_) ∈ timeList rhythm n i t := by
      rw [← hmap]
      exact List.mem_map_of_mem _ hnt
    exact timeList_pos rhythm hrne hrpos n i t _ hmem
  · have h := timeList_chain_lt rhythm hrne hrpos n i t
    rw [← hmap] at h
    exact List.chain'_iff_pairwise.mp
      ((List.chain'_map (fun nt : Note => (nt.start, nt.end_))).mp h)

/-- Claim C4: with a nonempty interval list rendering succeeds and the
note list is time-contiguous (each end equals the next start), every
note ends strictly after it starts, and start times are strictly
increasing. -/
theorem claim_C4 (key mood : String) (intervals : List Int) (numBars : Nat)
    (bpm : Int) (g : Rng) (hiv : intervals ≠ []) :
    ∃ notes, (create_arpeggio_from_intervals key mood intervals numBars bpm g).1 =
        some notes ∧
      List.Chain' (fun a b : Note => a.end_ = b.start) notes ∧
      (∀ nt ∈ notes, nt.start < nt.end_) ∧
      List.Pairwise (fun a b : Note => a.start < b.start) notes := by
  obtain ⟨hrne, hrpos⟩ := chosen_rhythm_ok mood g
  obtain ⟨hc, hp, hw⟩ := arpLoop_props intervals
    (get_scale_notes key (lookupMoodConfig mood).scaleType)
    (lookupMoodConfig mood).octaveRange (lookupMoodConfig mood).velocityRange
    ((choice (lookupMoodConfig mood).rhythmPatterns [] g).1) hrne hrpos
    (get_notes_per_bar (lookupMoodConfig mood).noteDensity * numBars) 0 0
    ((choice (lookupMoodConfig mood).rhythmPatterns [] g).2)
  exact ⟨_, create_arpeggio_eq key mood intervals numBars bpm g hiv, hc, hp, hw⟩

/-- Claim C4, witness at a concrete request. -/
theorem claim_C4_witness :
    ∃ notes, (create_arpeggio_from_intervals "C" "calm" [0, 2] 1 120 rng0).1 =
        some notes ∧
      List.Chain' (fun a b : Note => a.end_ = b.start) notes ∧
      (∀ nt ∈ notes, nt.start < nt.end_) ∧
      List.Pairwise (fun a b : Note => a.start < b.start) notes :=
  claim_C4 "C" "calm" [0, 2] 1 120 rng0 (by decide)

/-- Claim C5: with a nonempty interval list the number of rendered notes
is exactly `notes_per_bar(density(mood)) * num_bars`, and the density
table maps very_low, low, medium, high, very_high to 2, 4, 8, 16, 32. -/
theorem claim_C5 (key mood : String) (intervals : List Int) (numBars : Nat)
    (bpm : Int) (g : Rng) (hiv : intervals ≠ []) :
    (∃ notes, (create_arpeggio_from_intervals key mood intervals numBars bpm g).1 =
        some notes ∧
      notes.length = get_notes_per_bar (lookupMoodConfig mood).noteDensity * numBars) ∧
    get_notes_per_bar "very_low" = 2 ∧ get_notes_per_bar "low" = 4 ∧
    get_notes_per_bar "medium" = 8 ∧ get_notes_per_bar "high" = 16 ∧
    get_notes_per_bar "very_high" = 32 :=
  ⟨⟨_, create_arpeggio_eq key mood intervals numBars bpm g hiv,
    arpLoop_length _ _ _ _ _ _ _ _ _⟩, rfl, rfl, rfl, rfl, rfl⟩

/-- Claim C5, witness at a concrete request (calm, one bar: 4 notes). -/
theorem claim_C5_witness :
    (∃ notes, (create_arpeggio_from_intervals "C" "calm" [0, 2] 1 120 rng0).1 =
        some notes ∧
      notes.length = get_notes_per_bar (lookupMoodConfig "calm").noteDensity * 1) ∧
    get_notes_per_bar "very_low" = 2 ∧ get_notes_per_bar "low" = 4 ∧
    get_notes_per_bar "medium" = 8 ∧ get_notes_per_bar "high" = 16 ∧
    get_notes_per_bar "very_high" = 32 :=
  claim_C5 "C" "calm" [0, 2] 1 120 rng0 (by decide)

/-- Claim C6: for every key and scale type the scale resolver returns a
nonempty, strictly ascending (hence deduplicated) list of MIDI pitches
within 21..108, and on a parse failure it returns the fixed C-major
fallback instead of raising. -/
theorem claim_C6 (key scale_type : String) :
    get_scale_notes key scale_type ≠ [] ∧
    List.Sorted (· < ·) (get_scale_notes key scale_type) ∧
    (∀ p ∈ get_scale_notes key scale_type, 21 ≤ p ∧ p ≤ 108) ∧
    (get_scale_notes key scale_type).Nodup ∧
    (parse_key key = none →
      get_scale_notes key scale_type = [60, 62, 64, 65, 67, 69, 71, 72]) := by
  rcases hk : parse_key key with _ | root
  · simp only [get_scale_notes, hk]
    exact ⟨by decide, by decide, by decide, by decide, by trivial⟩
  · obtain ⟨hlo, hhi⟩ := parse_key_bounds hk
    simp only [get_scale_notes, hk]
    have hbound : ∀ p ∈ ([-1, 0, 1, 2] : List Int).flatMap fun octave =>
        (scale_steps scale_type).filterMap fun step =>
          let midi := root + step + octave * 12
          if 21 ≤ midi ∧ midi ≤ 108 then some midi else none,
        21 ≤ p ∧ p ≤ 108 := by
      intro p hp
      obtain ⟨o, _, hp2⟩ := List.mem_flatMap.mp hp
      obtain ⟨st, _, hf⟩ := List.mem_filterMap.mp hp2
      simp only at hf
      by_cases hc : 21 ≤ root + st + o * 12 ∧ root + st + o * 12 ≤ 108
      · rw [if_pos hc] at hf
        obtain rfl := Option.some.inj hf
        exact hc
      · rw [if_neg hc] at hf
        cases hf
    have hroot : root ∈ ([-1, 0, 1, 2] : List Int).flatMap fun octave =>
        (scale_steps scale_type).filterMap fun step =>
          let midi := root + step + octave * 12
          if 21 ≤ midi ∧ midi ≤ 108 then some midi else none := by
      refine List.mem_flatMap.mpr ⟨0, by decide, ?_⟩
      refine List.mem_filterMap.mpr ⟨0, zero_mem_scale_steps scale_type, ?_⟩
      simp only
      rw [if_pos (by constructor <;> omega)]
      norm_num
    refine ⟨?_, Finset.sort_sorted_lt _, ?_, Finset.sort_nodup _ _, ?_⟩
    · exact List.ne_nil_of_mem ((Finset.mem_sort _).mpr (List.mem_toFinset.mpr hroot))
    · intro p hp
      exact hbound p (List.mem_toFinset.mp ((Finset.mem_sort _).mp hp))
    · intro h
      exact (Option.noConfusion h)

/-- Claim C6, witness: an unparseable key yields the C-major fallback
(which itself satisfies all the stated properties). -/
theorem claim_C6_witness :
    get_scale_notes "H" "major" = [60, 62, 64, 65, 67, 69, 71, 72] :=
  (claim_C6 "H" "major").2.2.2.2 (by decide)

/-- Claim C7: with a provided seed, the generator state reaching every
random consumer is a function of the seed alone, so two calls with the
same seed and parameters but arbitrary prior generator states return
identical results, identical note lists and identical serialized MIDI
bytes. -/
theorem claim_C7 (key mood : String) (bpm : Int) (numBars : Nat)
    (patternStyle : String) (s : Nat) (g1 g2 : Rng) :
    generate_arpeggio key mood bpm numBars patternStyle (some s) g1 =
      generate_arpeggio key mood bpm numBars patternStyle (some s) g2 ∧
    Option.map (fun p => p.1.notes)
        (generate_arpeggio key mood bpm numBars patternStyle (some s) g1).1 =
      Option.map (fun p => p.1.notes)
        (generate_arpeggio key mood bpm numBars patternStyle (some s) g2).1 ∧
    Option.map (fun p => midi_to_bytes p.1)
        (generate_arpeggio key mood bpm numBars patternStyle (some s) g1).1 =
      Option.map (fun p => midi_to_bytes p.1)
        (generate_arpeggio key mood bpm numBars patternStyle (some s) g2).1 := by
  have h : generate_arpeggio key mood bpm numBars patternStyle (some s) g1 =
      generate_arpeggio key mood bpm numBars patternStyle (some s) g2 := by
    unfold generate_arpeggio
    rfl
  exact ⟨h, by rw [h], by rw [h]⟩

/-- Claim C9: the deterministic style functions produce the reference
sequences (`i % 8` ascending, `7 - i % 8` descending, eight-note
ascending/descending blocks alternating), and the concrete calm
descending one-bar request yields [7, 6, 5, 4]. -/
theorem claim_C9 (key mood : String) (numBars : Nat) (g : Rng) :
    ((create_pattern_from_style "ascending" key mood numBars g).1 =
      (List.range (get_notes_per_bar (lookupMoodConfig mood).noteDensity * numBars)).map
        fun i => ((i % 8 : Nat) : Int)) ∧
    ((create_pattern_from_style "descending" key mood numBars g).1 =
      (List.range (get_notes_per_bar (lookupMoodConfig mood).noteDensity * numBars)).map
        fun i => 7 - ((i % 8 : Nat) : Int)) ∧
    ((create_pattern_from_style "alternating" key mood numBars g).1 =
      (List.range (get_notes_per_bar (lookupMoodConfig mood).noteDensity * numBars)).map
        fun i => if (i / 8) % 2 = 0 then ((i % 8 : Nat) : Int)
          else 7 - ((i % 8 : Nat) : Int)) ∧
    (create_pattern_from_style "descending" "C" "calm" 1 g).1 = [7, 6, 5, 4] := by
  refine ⟨rfl, rfl, ?_, rfl⟩
  have hred : (create_pattern_from_style "alternating" key mood numBars g).1 =
      alternatingGo (get_notes_per_bar (lookupMoodConfig mood).noteDensity * numBars)
        0 true := rfl
  rw [hred, alternatingGo_eq _ 0 true (by decide)]
  apply List.map_congr_left
  intro t _
  simp

end MusicArp
